import Mathlib

/-
Verification of the sols.bet smart-vault contracts.

The repository contains four generations of the same Anchor/Solana wagering
program:

  * `src/contract/lib.rs`        — two-phase place_bet / settle_game version
                                   (namespace `V1` below);
  * `src/contract/airdrop.rs`    — atomic bet_and_settle with the gem-reward
                                   derivation loop (namespace `Airdrop`);
  * `src/contract/src/lib.rs`    — v2 contract: pause gates, atomic
                                   bet_and_settle and batch_settle over
                                   (stake, payout) lists (namespace `V2`);
  * `src/contract/batch-settle.rs` — profit-list batch_settle variant
                                   (namespace `BS`).

Conventions of the shallow embedding:

  * u64 / u32 / u8 quantities are `Nat` (or `Int` where the program's own
    arithmetic mixes signs); wrap-around of unchecked Rust arithmetic is made
    explicit with `% 2^64` where it matters, and `checked_add` is modelled as
    an explicit bound test against `2^64`.
  * Solana `Pubkey`s are `Nat`; only equality with the hardcoded authority
    constants is ever used by the programs, so the constants are distinct
    numeric tags.
  * Each instruction handler is a total function returning
    `Except VaultError State`.  The Solana runtime commits the new state on
    `ok` and discards every tentative write on `error` (the atomic invocation
    envelope); `commit` below expresses that convention.
-/

namespace SolsBet

/-- Union of the `VaultError` enums of the four contract files (the first
eight constructors are common to all of them, in source order). -/
inductive VaultError where
  | InvalidAmount
  | GamesInProgress
  | InsufficientFunds
  | NoActiveGame
  | SettlementMismatch
  | Unauthorized
  | HouseInsufficient
  | Overflow
  | BatchTooLarge
  | MaintenancePaused
  | EmergencyPaused
  | InvalidMultiplier
  deriving DecidableEq

/-- The modulus `2^64` of Rust `u64` arithmetic. -/
def U64MOD : ℕ := 2 ^ 64

/-- The modulus `2^32` of Rust `u32` arithmetic. -/
def U32MOD : ℕ := 2 ^ 32

/-- The state visible after a Solana transaction: on `ok` the new state is
committed, on `error` the runtime rolls every tentative write back. -/
def commit {σ ε : Type} (s : σ) (r : Except ε σ) : σ :=
  match r with
  | .ok s' => s'
  | .error _ => s

namespace V1

/-- The `AUTHORITY_PUBKEY` of `src/contract/lib.rs` (the base58 constant
`CBKPbzTqdz4TMa1qoGCAokuSASGkAXtKZ9EWovwnSSfG`); the program only ever
compares caller keys against it, so it is an abstract numeric tag. -/
def AUTHORITY_PUBKEY : ℕ := 1001

/-- State touched by the `src/contract/lib.rs` handlers: the `UserVault`
account fields `locked_amount : u64` and `active_games : u32`, plus the
lamport balances of the vault PDA and the house PDA.  `locked_amount` and the
lamport cells are carried as `Int` so that "never negative" is a real
statement about the guarded u64 subtractions the code performs. -/
structure State where
  locked_amount : ℤ
  active_games : ℕ
  balance : ℤ
  house : ℤ
  deriving DecidableEq

/-- Handler `deposit` of `src/contract/lib.rs`: requires `amount > 0` and transfers
`amount` lamports from the user wallet into the vault PDA. -/
def deposit (amount : ℕ) (s : State) : Except VaultError State :=
  if amount > 0 then
    .ok { s with balance := s.balance + amount }
  else .error .InvalidAmount

/-- Handler `withdraw` of `src/contract/lib.rs`: requires `amount > 0`,
`active_games == 0` and vault lamports `≥ amount`, then moves `amount`
lamports from the vault PDA back to the owner wallet. -/
def withdraw (amount : ℕ) (s : State) : Except VaultError State :=
  if amount > 0 then
    if s.active_games = 0 then
      if s.balance ≥ (amount : ℤ) then
        .ok { s with balance := s.balance - amount }
      else .error .InsufficientFunds
    else .error .GamesInProgress
  else .error .InvalidAmount

/-- Handler `place_bet` of `src/contract/lib.rs`: requires `stake > 0`, the caller to
be `AUTHORITY_PUBKEY`, and `available = balance.saturating_sub(locked_amount)
≥ stake`; then `locked_amount` grows by `stake` (`checked_add`, error
`Overflow` at `2^64`), `active_games` is incremented (u32), and `stake`
lamports move from the vault PDA to the house PDA. -/
def place_bet (caller : ℕ) (stake : ℕ) (s : State) : Except VaultError State :=
  if stake > 0 then
    if caller = AUTHORITY_PUBKEY then
      if max 0 (s.balance - s.locked_amount) ≥ (stake : ℤ) then
        if s.locked_amount + stake < (U64MOD : ℤ) then
          .ok { locked_amount := s.locked_amount + stake
                active_games := (s.active_games + 1) % U32MOD
                balance := s.balance - stake
                house := s.house + stake }
        else .error .Overflow
      else .error .InsufficientFunds
    else .error .Unauthorized
  else .error .InvalidAmount

/-- Handler `settle_game` of `src/contract/lib.rs`: requires `stake > 0`, the caller
to be `AUTHORITY_PUBKEY`, `active_games > 0` and `locked_amount ≥ stake`;
unlocks `stake`, decrements `active_games`, and when `payout > 0` moves
`payout` lamports from the house PDA to the vault PDA (error
`HouseInsufficient` when the house holds less than `payout`). -/
def settle_game (caller : ℕ) (stake payout : ℕ) (s : State) :
    Except VaultError State :=
  if stake > 0 then
    if caller = AUTHORITY_PUBKEY then
      if s.active_games > 0 then
        if s.locked_amount ≥ (stake : ℤ) then
          let s1 : State :=
            { s with locked_amount := s.locked_amount - stake
                     active_games := s.active_games - 1 }
          if payout > 0 then
            if s1.house ≥ (payout : ℤ) then
              .ok { s1 with house := s1.house - payout
                            balance := s1.balance + payout }
            else .error .HouseInsufficient
          else .ok s1
        else .error .SettlementMismatch
      else .error .NoActiveGame
    else .error .Unauthorized
  else .error .InvalidAmount

/-- Handler `credit_win` of `src/contract/lib.rs`: authority-gated house→vault
transfer that touches neither `locked_amount` nor `active_games`. -/
def credit_win (caller : ℕ) (amount : ℕ) (s : State) :
    Except VaultError State :=
  if amount > 0 then
    if caller = AUTHORITY_PUBKEY then
      if s.house ≥ (amount : ℤ) then
        .ok { s with house := s.house - amount, balance := s.balance + amount }
      else .error .HouseInsufficient
    else .error .Unauthorized
  else .error .InvalidAmount

/-- Handler `debit_loss` of `src/contract/lib.rs`: authority-gated vault→house
transfer that touches neither `locked_amount` nor `active_games`. -/
def debit_loss (caller : ℕ) (amount : ℕ) (s : State) :
    Except VaultError State :=
  if amount > 0 then
    if caller = AUTHORITY_PUBKEY then
      if s.balance ≥ (amount : ℤ) then
        .ok { s with balance := s.balance - amount, house := s.house + amount }
      else .error .InsufficientFunds
    else .error .Unauthorized
  else .error .InvalidAmount

/-- One ledger instruction of `src/contract/lib.rs` together with its caller
key and arguments. -/
inductive Op where
  | deposit (amount : ℕ)
  | withdraw (amount : ℕ)
  | placeBet (caller stake : ℕ)
  | settleGame (caller stake payout : ℕ)
  | creditWin (caller amount : ℕ)
  | debitLoss (caller amount : ℕ)

/-- Dispatch one instruction. -/
def apply (op : Op) (s : State) : Except VaultError State :=
  match op with
  | .deposit a => deposit a s
  | .withdraw a => withdraw a s
  | .placeBet c k => place_bet c k s
  | .settleGame c k p => settle_game c k p s
  | .creditWin c a => credit_win c a s
  | .debitLoss c a => debit_loss c a s

/-- Reachable ledger states: `initialize_vault` zeroes `locked_amount` and
`active_games`, the vault and house PDAs start with some (non-negative)
lamport balances, and every later state is produced by a successful
instruction. -/
inductive Reachable : State → Prop where
  | init (b h : ℕ) : Reachable ⟨0, 0, (b : ℤ), (h : ℤ)⟩
  | step {s s' : State} (op : Op) :
      Reachable s → apply op s = .ok s' → Reachable s'

end V1

namespace Airdrop

/-- The `AUTHORITY_PUBKEY` of `src/contract/airdrop.rs` (same base58 constant as
the two-phase version). -/
def AUTHORITY_PUBKEY : ℕ := 1001

/-- The 7 gem rarity tiers of `src/contract/airdrop.rs` (common → legendary,
in source order). -/
inductive GemType where
  | Garnet
  | Amethyst
  | Topaz
  | Sapphire
  | Emerald
  | Ruby
  | Diamond
  deriving DecidableEq

/-- The fixed reward threshold of `bet_and_settle`:
`let threshold = 100_000_000u64;` (0.1 SOL in lamports). -/
def threshold : ℕ := 100000000

/-- Cumulative breakpoint classification of an award roll against
`sub_probs = [150, 230, 270, 290, 297, 299, 300]`. -/
def classifyGem (award_roll : ℕ) : GemType :=
  if award_roll < 150 then .Garnet
  else if award_roll < 230 then .Amethyst
  else if award_roll < 270 then .Topaz
  else if award_roll < 290 then .Sapphire
  else if award_roll < 297 then .Emerald
  else if award_roll < 299 then .Ruby
  else .Diamond

/-- Result of the gem-derivation `while` loop: the remaining `accum_wager`,
the final `roll_count` and the queued gems. -/
structure GemResult where
  accum : ℕ
  rollCount : ℕ
  gems : List GemType
  deriving DecidableEq

/-- The gem-derivation `while` loop of `bet_and_settle`
(`src/contract/airdrop.rs` lines 178–219), one recursion step per loop
iteration.  `rolls i` stands for the 64-bit value
`u64::from_le_bytes(keccak(base_hash ‖ i)[0..8])` of roll index `i`; the
code reduces it `% 1000`, which the model performs on the spot.  The
`fuel` argument only bounds the recursion; `gemLoop` below supplies
`accum / threshold + 1`, which `gemLoopGo_fuel_irrelevant`-style lemmas in
the theorem section show is never exhausted (each iteration requires
`accum ≥ threshold` and removes `threshold`). -/
def gemLoopGo (rolls : ℕ → ℕ) (multiplier : ℕ) :
    ℕ → ℕ → ℕ → List GemType → GemResult
  | 0, accum, roll_count, gems => ⟨accum, roll_count, gems⟩
  | fuel + 1, accum, roll_count, gems =>
    if accum ≥ threshold then
      let accum' := accum - threshold
      let roll := rolls roll_count % 1000
      -- base_award_prob = 300, scaled by the multiplier, capped at 1000
      let effective_award_prob := 300 * multiplier / 100
      let nothing_prob := 1000 - min effective_award_prob 1000
      if roll < nothing_prob then
        -- `roll_count += 1; continue;` — note: skips the 100-roll cap test
        gemLoopGo rolls multiplier fuel accum' (roll_count + 1) gems
      else
        let award_roll := (roll - nothing_prob) * 300 / effective_award_prob
        let gems' := gems ++ [classifyGem award_roll]
        -- `roll_count += 1; if roll_count > 100 { break; }`
        if roll_count + 1 > 100 then ⟨accum', roll_count + 1, gems'⟩
        else gemLoopGo rolls multiplier fuel accum' (roll_count + 1) gems'
    else ⟨accum, roll_count, gems⟩

/-- The gem-derivation loop started the way `bet_and_settle` starts it:
`roll_count = 0`, empty gem list. -/
def gemLoop (rolls : ℕ → ℕ) (multiplier : ℕ) (accum : ℕ) : GemResult :=
  gemLoopGo rolls multiplier (accum / threshold + 1) accum 0 []

/-- Vault/house state touched by the airdrop-version `bet_and_settle`. -/
structure State where
  locked_amount : ℕ
  active_games : ℕ
  accum_wager : ℕ
  balance : ℕ
  house : ℕ
  deriving DecidableEq

/-- Handler `bet_and_settle` of `src/contract/airdrop.rs`: lock the stake, move it
to the house, immediately unlock and settle (`payout > 0` pays the full
payout back from the house), then add the stake to `accum_wager` (unchecked
u64 `+=`, hence `% 2^64`) and run the gem loop.  `rolls` abstracts the
keccak digests derived from the call-scoped seed. -/
def bet_and_settle (rolls : ℕ → ℕ) (caller : ℕ) (stake payout : ℕ)
    (multiplier : ℕ) (s : State) : Except VaultError (State × GemResult) :=
  if stake > 0 then
    if multiplier ≥ 50 ∧ multiplier ≤ 300 then
      if caller = AUTHORITY_PUBKEY then
        -- `saturating_sub` is exactly truncated ℕ subtraction
        if s.balance - s.locked_amount ≥ stake then
          if s.locked_amount + stake < U64MOD then
            -- lock + move stake to house, then unlock (net-zero lock change)
            let afterStake : State :=
              { s with balance := s.balance - stake, house := s.house + stake }
            if payout > 0 then
              if afterStake.house ≥ payout then
                let settled : State :=
                  { afterStake with house := afterStake.house - payout
                                    balance := afterStake.balance + payout }
                let accum' := (settled.accum_wager + stake) % U64MOD
                let res := gemLoop rolls multiplier accum'
                .ok ({ settled with accum_wager := res.accum }, res)
              else .error .HouseInsufficient
            else
              let accum' := (afterStake.accum_wager + stake) % U64MOD
              let res := gemLoop rolls multiplier accum'
              .ok ({ afterStake with accum_wager := res.accum }, res)
          else .error .Overflow
        else .error .InsufficientFunds
      else .error .Unauthorized
    else .error .InvalidMultiplier
  else .error .InvalidAmount

end Airdrop

namespace V2

/-- The multisig authority constant of `src/contract/src/lib.rs`
(`BMprzPNF9FTni4mJWwCJnk91ZzhKdxGCx7BwPckMRzBt`); abstract numeric tag. -/
def MULTISIG : ℕ := 2001

/-- The admin authority constant of `src/contract/src/lib.rs`
(`4y1oXmheqD5VNScoNwLH17WQQExXSxBasH6TTwCb4iN5`); abstract numeric tag,
distinct from `MULTISIG`. -/
def ADMIN : ℕ := 2002

/-- The `PauseConfig` account of `src/contract/src/lib.rs`. -/
structure PauseConfig where
  multisig_authority : ℕ
  admin_authority : ℕ
  maintenance_pause : Bool
  maintenance_start_time : ℤ
  maintenance_duration_hours : ℕ
  emergency_pause : Bool
  deriving DecidableEq

/-- Rust `as u8` on an `i64`: keep the low 8 bits of the two's-complement
representation, i.e. the value modulo 256 (`Int.emod` is non-negative for a
positive modulus). -/
def asU8 (v : ℤ) : ℕ := (v % 256).toNat

/-- The per-call maintenance auto-unpause evaluated on a clone of the pause
config (identical block in `deposit`, `withdraw`, `bet_and_settle` and
`batch_settle`): `elapsed_seconds = now - maintenance_start_time` (i64),
`elapsed_hours = (elapsed_seconds / 3600) as u8` — i64 division truncates
toward zero, then the cast keeps the low 8 bits — and the local maintenance
flag is cleared when `elapsed_hours >= maintenance_duration_hours`. -/
def effectiveConfig (cfg : PauseConfig) (now : ℤ) : PauseConfig :=
  if cfg.maintenance_pause then
    let elapsed_seconds := now - cfg.maintenance_start_time
    let elapsed_hours := asU8 (Int.tdiv elapsed_seconds 3600)
    if elapsed_hours ≥ cfg.maintenance_duration_hours then
      { cfg with maintenance_pause := false, maintenance_start_time := 0 }
    else cfg
  else cfg

/-- The pause gate shared by every balance-moving v2 instruction:
`require!(!emergency_pause)` then `require!(!maintenance_pause)` on the
auto-unpause-adjusted local config. -/
def pauseGate (cfg : PauseConfig) (now : ℤ) : Except VaultError Unit :=
  let cfg' := effectiveConfig cfg now
  if cfg'.emergency_pause then .error .EmergencyPaused
  else if cfg'.maintenance_pause then .error .MaintenancePaused
  else .ok ()

/-- Handler `deposit` of `src/contract/src/lib.rs`: `amount > 0`, pause gate, then
transfer `amount` lamports from the user wallet into the vault PDA. -/
def deposit (amount : ℕ) (cfg : PauseConfig) (now : ℤ) (balance : ℕ) :
    Except VaultError ℕ :=
  if amount > 0 then
    match pauseGate cfg now with
    | .error e => .error e
    | .ok _ => .ok (balance + amount)
  else .error .InvalidAmount

/-- Handler `withdraw` of `src/contract/src/lib.rs`: `amount > 0`, pause gate,
`active_games == 0`, vault lamports `≥ amount`, then move `amount` lamports
from the vault PDA to the owner wallet. -/
def withdraw (amount : ℕ) (cfg : PauseConfig) (now : ℤ)
    (active_games : ℕ) (balance : ℕ) : Except VaultError ℕ :=
  if amount > 0 then
    match pauseGate cfg now with
    | .error e => .error e
    | .ok _ =>
      if active_games = 0 then
        if balance ≥ amount then .ok (balance - amount)
        else .error .InsufficientFunds
      else .error .GamesInProgress
  else .error .InvalidAmount

/-- Vault-PDA lamports, house-PDA lamports and house `total_volume` — the
state a v2 single-vault settlement touches. -/
structure BState where
  vault : ℕ
  house : ℕ
  total_volume : ℕ
  deriving DecidableEq

/-- The settlement core shared verbatim between `bet_and_settle` and each
`batch_settle` loop iteration of `src/contract/src/lib.rs`: optional vault
funds check and volume `checked_add` for `stake > 0`, then the
stake-vs-payout case split moving the net difference. -/
def settleEntry (stake payout : ℕ) (vault house volume : ℕ) :
    Except VaultError (ℕ × ℕ × ℕ) :=
  if stake > 0 ∧ vault < stake then .error .InsufficientFunds
  -- `total_volume.checked_add(stake)` — performed only when `stake > 0`
  else if stake > 0 ∧ volume + stake ≥ U64MOD then .error .Overflow
  else if stake = 0 then
    -- stake already deducted in a previous transaction: pure payout
    if payout > 0 then
      if house ≥ payout then .ok (vault + payout, house - payout, volume)
      else .error .HouseInsufficient
    else .ok (vault, house, volume)
  else
    if payout > stake then
      if house ≥ payout - stake then
        .ok (vault + (payout - stake), house - (payout - stake), volume + stake)
      else .error .HouseInsufficient
    else if payout < stake then
      if vault ≥ stake - payout then
        .ok (vault - (stake - payout), house + (stake - payout), volume + stake)
      else .error .InsufficientFunds
    else .ok (vault, house, volume + stake)

/-- Handler `bet_and_settle` of `src/contract/src/lib.rs`: requires a 7-byte
`gem_data`, the pause gate, and the admin authority, then applies the
settlement core to the vault and house. `bet_id` and `game_id` only feed the
log message. -/
def bet_and_settle (stake payout : ℕ) (bet_id : String) (game_id : ℕ)
    (gem_data : List ℕ) (caller : ℕ) (cfg : PauseConfig) (now : ℤ)
    (s : BState) : Except VaultError BState :=
  if gem_data.length = 7 then
    match pauseGate cfg now with
    | .error e => .error e
    | .ok _ =>
      if caller = ADMIN then
        match settleEntry stake payout s.vault s.house s.total_volume with
        | .error e => .error e
        | .ok (v, h, vol) => .ok ⟨v, h, vol⟩
      else .error .Unauthorized
  else .error .InvalidAmount

/-- The `batch_settle` processing loop of `src/contract/src/lib.rs`: each
`(stake, payout)` pair is matched positionally with the lamport balance of
the vault account supplied at the same index in `remaining_accounts`; the
house balance and volume thread through the entries in list order, and the
first failing entry aborts the whole call. -/
def settleAll : List ((ℕ × ℕ) × ℕ) → ℕ → ℕ →
    Except VaultError (List ℕ × ℕ × ℕ)
  | [], house, volume => .ok ([], house, volume)
  | ((stake, payout), bal) :: rest, house, volume =>
    match settleEntry stake payout bal house volume with
    | .error e => .error e
    | .ok (bal', house', volume') =>
      match settleAll rest house' volume' with
      | .error e => .error e
      | .ok (bals, houseF, volumeF) => .ok (bal' :: bals, houseF, volumeF)

/-- Handler `batch_settle` of `src/contract/src/lib.rs`: input validation in source
order (`len ≤ 10` else `BatchTooLarge`, `len > 0`, all four auxiliary lists
the same length, every `gem_data` exactly 7 bytes — each other failure is
`InvalidAmount`), then the pause gate, the admin check, the
remaining-accounts length check, and finally the sequential settlement loop.
`vaults` lists the lamport balances of the supplied vault accounts. -/
def batch_settle (stakes payouts : List ℕ) (bet_ids : List String)
    (game_ids : List ℕ) (gem_datas : List (List ℕ)) (caller : ℕ)
    (cfg : PauseConfig) (now : ℤ) (vaults : List ℕ) (house volume : ℕ) :
    Except VaultError (List ℕ × ℕ × ℕ) :=
  if stakes.length > 10 then .error .BatchTooLarge
  else if stakes.length = 0 then .error .InvalidAmount
  else if payouts.length ≠ stakes.length then .error .InvalidAmount
  else if bet_ids.length ≠ stakes.length then .error .InvalidAmount
  else if game_ids.length ≠ stakes.length then .error .InvalidAmount
  else if gem_datas.length ≠ stakes.length then .error .InvalidAmount
  else if ¬ (gem_datas.all fun d => d.length = 7) then .error .InvalidAmount
  else
    match pauseGate cfg now with
    | .error e => .error e
    | .ok _ =>
      if caller = ADMIN then
        if vaults.length = stakes.length then
          settleAll ((stakes.zip payouts).zip vaults) house volume
        else .error .InvalidAmount
      else .error .Unauthorized

end V2

namespace BS

/-- The `AUTHORITY_PUBKEY` of `src/contract/batch-settle.rs` (same base58
constant as the two-phase version). -/
def AUTHORITY_PUBKEY : ℕ := 1001

/-- A vault account passed through `remaining_accounts`: its key, its
writability flag, and its lamport balance. -/
structure RAcc where
  key : ℕ
  writable : Bool
  lamports : ℕ
  deriving DecidableEq

/-- The `batch_settle` loop of `src/contract/batch-settle.rs` for one
(user, profit, vault-account) triple followed by the rest.  `pda u` stands
for `Pubkey::find_program_address([b"vault", u], program_id).0`.  A negative
profit subtracts `(-delta) as u64` lamports from the vault with **no**
balance check — the u64 subtraction is unchecked, so the model wraps it
modulo `2^64` — while a positive profit checks the house balance before
paying the vault. -/
def settleUsers (pda : ℕ → ℕ) :
    List (ℕ × ℤ × RAcc) → ℕ → Except VaultError (List ℕ × ℕ)
  | [], house => .ok ([], house)
  | (user, delta, acc) :: rest, house =>
    if acc.key = pda user then
      if acc.writable then
        if delta < 0 then
          let lamports := (-delta).toNat
          -- `**vault_info.try_borrow_mut_lamports()? -= lamports;`
          -- unchecked u64 subtraction: wraps when lamports > balance
          let bal' := (acc.lamports + U64MOD - lamports % U64MOD) % U64MOD
          let house' := (house + lamports) % U64MOD
          match settleUsers pda rest house' with
          | .error e => .error e
          | .ok (bals, houseF) => .ok (bal' :: bals, houseF)
        else if delta > 0 then
          let lamports := delta.toNat
          if house ≥ lamports then
            let bal' := (acc.lamports + lamports) % U64MOD
            match settleUsers pda rest (house - lamports) with
            | .error e => .error e
            | .ok (bals, houseF) => .ok (bal' :: bals, houseF)
          else .error .HouseInsufficient
        else
          match settleUsers pda rest house with
          | .error e => .error e
          | .ok (bals, houseF) => .ok (acc.lamports :: bals, houseF)
      else .error .Unauthorized
    else .error .Unauthorized

/-- Handler `batch_settle` of `src/contract/batch-settle.rs`: equal-length checks on
`users` / `profits` / `remaining_accounts`, then the per-user loop. -/
def batch_settle (pda : ℕ → ℕ) (users : List ℕ) (profits : List ℤ)
    (remaining : List RAcc) (house : ℕ) : Except VaultError (List ℕ × ℕ) :=
  if users.length ≠ profits.length then .error .InvalidAmount
  else if remaining.length ≠ users.length then .error .InvalidAmount
  else settleUsers pda (users.zip (profits.zip remaining)) house

end BS

/-! ### Inversion helpers for the V1 instruction handlers -/

/-- A successful `deposit` requires a positive amount and only adds it to the
vault balance. -/
theorem V1.deposit_ok_inv {a : ℕ} {s s' : V1.State}
    (h : V1.deposit a s = .ok s') :
    0 < a ∧ s' = { s with balance := s.balance + a } := by
  unfold V1.deposit at h
  split at h
  next hc => injection h with h; exact ⟨hc, h.symm⟩
  next => exact (Except.noConfusion h)

/-- A successful `withdraw` requires a positive amount, no active games and
sufficient vault lamports, and only subtracts the amount from the vault. -/
theorem V1.withdraw_ok_inv {a : ℕ} {s s' : V1.State}
    (h : V1.withdraw a s = .ok s') :
    0 < a ∧ s.active_games = 0 ∧ (a : ℤ) ≤ s.balance ∧
      s' = { s with balance := s.balance - a } := by
  unfold V1.withdraw at h
  split at h
  next ha =>
    split at h
    next hg =>
      split at h
      next hb => injection h with h; exact ⟨ha, hg, hb, h.symm⟩
      next => exact (Except.noConfusion h)
    next => exact (Except.noConfusion h)
  next => exact (Except.noConfusion h)

/-- A successful `place_bet` requires a positive stake, the settlement
authority, and `stake ≤ balance.saturating_sub(locked_amount)`; it locks the
stake, bumps `active_games` and moves the stake from vault to house. -/
theorem V1.place_bet_ok_inv {c k : ℕ} {s s' : V1.State}
    (h : V1.place_bet c k s = .ok s') :
    0 < k ∧ c = V1.AUTHORITY_PUBKEY ∧
      (k : ℤ) ≤ max 0 (s.balance - s.locked_amount) ∧
      s' = ⟨s.locked_amount + k, (s.active_games + 1) % U32MOD,
            s.balance - k, s.house + k⟩ := by
  unfold V1.place_bet at h
  split at h
  next hk =>
    split at h
    next hc =>
      split at h
      next hb =>
        split at h
        next => injection h with h; exact ⟨hk, hc, hb, h.symm⟩
        next => exact (Except.noConfusion h)
      next => exact (Except.noConfusion h)
    next => exact (Except.noConfusion h)
  next => exact (Except.noConfusion h)

/-- A successful `settle_game` requires a positive stake, the authority, an
active game and `locked_amount ≥ stake`; it unlocks the stake, decrements
`active_games` and (for `payout > 0`, which must fit in the house balance)
pays `payout` from house to vault. -/
theorem V1.settle_game_ok_inv {c k p : ℕ} {s s' : V1.State}
    (h : V1.settle_game c k p s = .ok s') :
    0 < k ∧ c = V1.AUTHORITY_PUBKEY ∧ 0 < s.active_games ∧
      (k : ℤ) ≤ s.locked_amount ∧ ((p : ℤ) ≤ s.house ∨ p = 0) ∧
      s' = ⟨s.locked_amount - k, s.active_games - 1,
            s.balance + p, s.house - p⟩ := by
  unfold V1.settle_game at h
  split at h
  next hk =>
    split at h
    next hc =>
      split at h
      next hg =>
        split at h
        next hl =>
          simp only [] at h
          split at h
          next hp =>
            split at h
            next hh =>
              injection h with h
              exact ⟨hk, hc, hg, hl, Or.inl hh, h.symm⟩
            next => exact (Except.noConfusion h)
          next hp =>
            injection h with h
            refine ⟨hk, hc, hg, hl, Or.inr (by omega), ?_⟩
            rw [← h]
            have hp0 : p = 0 := by omega
            subst hp0
            simp
        next => exact (Except.noConfusion h)
      next => exact (Except.noConfusion h)
    next => exact (Except.noConfusion h)
  next => exact (Except.noConfusion h)

/-- A successful `credit_win` requires the authority and a sufficient house
balance, and moves the amount from house to vault. -/
theorem V1.credit_win_ok_inv {c a : ℕ} {s s' : V1.State}
    (h : V1.credit_win c a s = .ok s') :
    0 < a ∧ (a : ℤ) ≤ s.house ∧
      s' = { s with house := s.house - a, balance := s.balance + a } := by
  unfold V1.credit_win at h
  split at h
  next ha =>
    split at h
    next =>
      split at h
      next hh => injection h with h; exact ⟨ha, hh, h.symm⟩
      next => exact (Except.noConfusion h)
    next => exact (Except.noConfusion h)
  next => exact (Except.noConfusion h)

/-- A successful `debit_loss` requires the authority and a sufficient vault
balance, and moves the amount from vault to house. -/
theorem V1.debit_loss_ok_inv {c a : ℕ} {s s' : V1.State}
    (h : V1.debit_loss c a s = .ok s') :
    0 < a ∧ (a : ℤ) ≤ s.balance ∧
      s' = { s with balance := s.balance - a, house := s.house + a } := by
  unfold V1.debit_loss at h
  split at h
  next ha =>
    split at h
    next =>
      split at h
      next hb => injection h with h; exact ⟨ha, hb, h.symm⟩
      next => exact (Except.noConfusion h)
    next => exact (Except.noConfusion h)
  next => exact (Except.noConfusion h)

/-! ### Claim C1 -/

/-- Claim C1, as stated, is false on the code: `locked_amount ≤ balance` is
not preserved.  Witnessing trace: from a fresh vault, `deposit 500` then
`place_bet 500` succeeds (its guard `balance − locked ≥ stake` holds at
entry) but moves the stake to the house *while also* adding it to
`locked_amount`, reaching the state `locked_amount = 500`, `balance = 0`. -/
theorem C1_locked_le_balance_refuted :
    ¬ (∀ s : V1.State, V1.Reachable s → s.locked_amount ≤ s.balance) := by
  intro hinv
  have h1 : V1.Reachable ⟨0, 0, 0, 0⟩ := V1.Reachable.init 0 0
  have h2 : V1.Reachable ⟨0, 0, 500, 0⟩ :=
    V1.Reachable.step (.deposit 500) h1 rfl
  have h3 : V1.Reachable ⟨500, 1, 0, 500⟩ :=
    V1.Reachable.step (.placeBet V1.AUTHORITY_PUBKEY 500) h2 rfl
  exact absurd (hinv _ h3) (by decide)

/-- Claim C1 (amended): for every reachable state of a `UserVault` under the
ledger operations of the two-phase contract, `locked_amount` is never
negative — and neither lamport balance ever underflows — but `locked_amount`
may exceed the vault's current balance (see
`C1_locked_le_balance_refuted`): `place_bet` checks
`balance − locked ≥ stake` *before* moving the stake to the house pool, so
after it completes the locked amount can exceed what the vault still
holds. -/
theorem C1_locked_nonneg_reachable (s : V1.State) (h : V1.Reachable s) :
    0 ≤ s.locked_amount ∧ 0 ≤ s.balance ∧ 0 ≤ s.house := by
  induction h with
  | init b h => refine ⟨le_refl 0, ?_, ?_⟩ <;> simp
  | step op hr hok ih =>
    cases op with
    | deposit a =>
      obtain ⟨ha, rfl⟩ := V1.deposit_ok_inv hok
      obtain ⟨i1, i2, i3⟩ := ih
      refine ⟨i1, ?_, i3⟩
      simp only
      omega
    | withdraw a =>
      obtain ⟨ha, hg, hb, rfl⟩ := V1.withdraw_ok_inv hok
      obtain ⟨i1, i2, i3⟩ := ih
      refine ⟨i1, ?_, i3⟩
      simp only
      omega
    | placeBet c k =>
      obtain ⟨hk, hc, hb, rfl⟩ := V1.place_bet_ok_inv hok
      obtain ⟨i1, i2, i3⟩ := ih
      rcases le_max_iff.mp hb with h' | h' <;>
        exact ⟨by simp only; omega, by simp only; omega, by simp only; omega⟩
    | settleGame c k p =>
      obtain ⟨hk, hc, hg, hl, hp, rfl⟩ := V1.settle_game_ok_inv hok
      obtain ⟨i1, i2, i3⟩ := ih
      rcases hp with h' | h' <;>
        · subst_vars
          exact ⟨by simp only; omega, by simp only; omega, by simp only; omega⟩
    | creditWin c a =>
      obtain ⟨ha, hh, rfl⟩ := V1.credit_win_ok_inv hok
      obtain ⟨i1, i2, i3⟩ := ih
      exact ⟨i1, by simp only; omega, by simp only; omega⟩
    | debitLoss c a =>
      obtain ⟨ha, hb, rfl⟩ := V1.debit_loss_ok_inv hok
      obtain ⟨i1, i2, i3⟩ := ih
      exact ⟨i1, by simp only; omega, by simp only; omega⟩

/-- Concrete instantiation of `C1_locked_nonneg_reachable` at a freshly
initialized vault holding 3 lamports against a house holding 4. -/
theorem C1_locked_nonneg_reachable_witness :
    0 ≤ (V1.State.mk 0 0 3 4).locked_amount ∧
      0 ≤ (V1.State.mk 0 0 3 4).balance ∧ 0 ≤ (V1.State.mk 0 0 3 4).house :=
  C1_locked_nonneg_reachable ⟨0, 0, 3, 4⟩ (V1.Reachable.init 3 4)

/-! ### Claim C2 -/

/-- Each loop iteration consumes `threshold` from `accum_wager`, so the
number of rolls performed is bounded by `accum / threshold`. -/
theorem Airdrop.gemLoopGo_rollCount_le (rolls : ℕ → ℕ) (m : ℕ) :
    ∀ fuel accum rc : ℕ, ∀ gems : List Airdrop.GemType,
      accum / Airdrop.threshold < fuel →
      (Airdrop.gemLoopGo rolls m fuel accum rc gems).rollCount ≤
        rc + accum / Airdrop.threshold := by
  intro fuel
  induction fuel with
  | zero => intro accum rc gems hf; exact absurd hf (Nat.not_lt_zero _)
  | succ fuel ih =>
    intro accum rc gems hf
    have hth : Airdrop.threshold = 100000000 := rfl
    simp only [Airdrop.gemLoopGo]
    split
    next hge =>
      have hf' : (accum - Airdrop.threshold) / Airdrop.threshold < fuel := by
        rw [hth] at hf hge ⊢; omega
      have harith :
          rc + 1 + (accum - Airdrop.threshold) / Airdrop.threshold =
            rc + accum / Airdrop.threshold := by
        rw [hth] at hge ⊢; omega
      split
      next =>
        exact le_of_le_of_eq (ih (accum - Airdrop.threshold) (rc + 1) gems hf')
          harith
      next =>
        split
        next hbreak =>
          have : 1 ≤ accum / Airdrop.threshold := by rw [hth] at hge ⊢; omega
          simp only
          omega
        next =>
          exact le_of_le_of_eq (ih (accum - Airdrop.threshold) (rc + 1) _ hf')
            harith
    next => simp only; exact Nat.le_add_right _ _

/-- If the final roll count stays within the 100-roll cap, the loop exited
through its `while` condition, i.e. with `accum_wager < threshold`. -/
theorem Airdrop.gemLoopGo_exit (rolls : ℕ → ℕ) (m : ℕ) :
    ∀ fuel accum rc : ℕ, ∀ gems : List Airdrop.GemType,
      accum / Airdrop.threshold < fuel →
      (Airdrop.gemLoopGo rolls m fuel accum rc gems).rollCount ≤ 100 →
      (Airdrop.gemLoopGo rolls m fuel accum rc gems).accum <
        Airdrop.threshold := by
  intro fuel
  induction fuel with
  | zero => intro accum rc gems hf; exact absurd hf (Nat.not_lt_zero _)
  | succ fuel ih =>
    intro accum rc gems hf
    have hth : Airdrop.threshold = 100000000 := rfl
    simp only [Airdrop.gemLoopGo]
    split
    next hge =>
      have hf' : (accum - Airdrop.threshold) / Airdrop.threshold < fuel := by
        rw [hth] at hf hge ⊢; omega
      split
      next => exact ih (accum - Airdrop.threshold) (rc + 1) gems hf'
      next =>
        split
        next hbreak => intro hcap; simp only at hcap; omega
        next => exact ih (accum - Airdrop.threshold) (rc + 1) _ hf'
    next hlt => intro _; simp only; omega

/-- The loop keeps running while wager mass remains: the final roll count is
at least `min (rc + accum / threshold) 101` (the cap can only stop it at
roll 101, since the cap test follows the `roll_count` increment and is
skipped entirely by the `continue` of a no-award roll). -/
theorem Airdrop.gemLoopGo_lower (rolls : ℕ → ℕ) (m : ℕ) :
    ∀ fuel accum rc : ℕ, ∀ gems : List Airdrop.GemType,
      accum / Airdrop.threshold < fuel →
      min (rc + accum / Airdrop.threshold) 101 ≤
        (Airdrop.gemLoopGo rolls m fuel accum rc gems).rollCount := by
  intro fuel
  induction fuel with
  | zero => intro accum rc gems hf; exact absurd hf (Nat.not_lt_zero _)
  | succ fuel ih =>
    intro accum rc gems hf
    have hth : Airdrop.threshold = 100000000 := rfl
    simp only [Airdrop.gemLoopGo]
    split
    next hge =>
      have hf' : (accum - Airdrop.threshold) / Airdrop.threshold < fuel := by
        rw [hth] at hf hge ⊢; omega
      have harith :
          rc + 1 + (accum - Airdrop.threshold) / Airdrop.threshold =
            rc + accum / Airdrop.threshold := by
        rw [hth] at hge ⊢; omega
      split
      next =>
        have := ih (accum - Airdrop.threshold) (rc + 1) gems hf'
        rw [harith] at this
        exact this
      next =>
        split
        next hbreak =>
          simp only
          exact le_trans (min_le_right _ _) (by omega)
        next =>
          rw [← harith]
          exact ih (accum - Airdrop.threshold) (rc + 1) _ hf'
    next hlt =>
      have h0 : accum / Airdrop.threshold = 0 :=
        Nat.div_eq_of_lt (by omega)
      simp only
      rw [h0]
      exact le_trans (min_le_left _ _) (by omega)

/-- Claim C2, as stated, is false on the code: with
`accum_wager = 101 · threshold` and rolls that never award (here the digest
value 0, which falls below `nothing_prob = 700` at multiplier 100), the loop
performs 101 iterations — the `continue` of a no-award roll skips the
100-roll cap test entirely — which exceeds the claimed bound
`min(⌈accum/threshold⌉, 100) = 100`. -/
theorem C2_cap_counterexample :
    (Airdrop.gemLoop (fun _ => 0) 100 (101 * Airdrop.threshold)).rollCount
        = 101 ∧
      min ((101 * Airdrop.threshold + Airdrop.threshold - 1) /
          Airdrop.threshold) 100 = 100 := by
  constructor
  · rfl
  · norm_num [Airdrop.threshold]

/-- Claim C2 (amended): for every starting `accum_wager` and the fixed
threshold of 100,000,000 lamports, the reward loop terminates after at most
`⌊accum_wager / threshold⌋` iterations, and whenever it performs at most 100
rolls it exits with `accum_wager < threshold`.  The claimed extra bound of
100 iterations does not hold (`C2_cap_counterexample`): whenever
`accum_wager ≥ 101 · threshold` the loop performs at least 101 iterations
regardless of the roll values, because the cap test sits after the
`roll_count` increment in the award branch only and is skipped by the
`continue` of a no-award roll. -/
theorem C2_gem_loop_amended (rolls : ℕ → ℕ) (multiplier accum : ℕ) :
    (Airdrop.gemLoop rolls multiplier accum).rollCount ≤
        accum / Airdrop.threshold ∧
      ((Airdrop.gemLoop rolls multiplier accum).rollCount ≤ 100 →
        (Airdrop.gemLoop rolls multiplier accum).accum < Airdrop.threshold) ∧
      (101 ≤ accum / Airdrop.threshold →
        101 ≤ (Airdrop.gemLoop rolls multiplier accum).rollCount) := by
  unfold Airdrop.gemLoop
  refine ⟨?_, ?_, ?_⟩
  · have := Airdrop.gemLoopGo_rollCount_le rolls multiplier
      (accum / Airdrop.threshold + 1) accum 0 [] (by omega)
    omega
  · exact Airdrop.gemLoopGo_exit rolls multiplier
      (accum / Airdrop.threshold + 1) accum 0 [] (by omega)
  · intro h101
    have := Airdrop.gemLoopGo_lower rolls multiplier
      (accum / Airdrop.threshold + 1) accum 0 [] (by omega)
    rw [Nat.zero_add, min_eq_right (by omega)] at this
    exact this

/-- Concrete instantiation of `C2_gem_loop_amended`: at
`accum_wager = 101 · threshold` the loop is forced past the nominal cap. -/
theorem C2_gem_loop_amended_witness :
    101 ≤ (Airdrop.gemLoop (fun _ => 3) 100
      (101 * Airdrop.threshold)).rollCount :=
  (C2_gem_loop_amended (fun _ => 3) 100 (101 * Airdrop.threshold)).2.2
    (by norm_num [Airdrop.threshold])

/-! ### Claim C3 -/

/-- Behaviour of the shared settlement core for a positive stake: vault
funds check, exact volume increase, and the three payout-vs-stake cases. -/
theorem V2.settleEntry_pos_spec (stake payout vault house volume : ℕ)
    (hs : 0 < stake) (hvol : volume + stake < U64MOD) :
    (vault < stake →
      V2.settleEntry stake payout vault house volume =
        .error .InsufficientFunds) ∧
    (stake ≤ vault →
      (stake < payout →
        (payout - stake ≤ house →
          V2.settleEntry stake payout vault house volume =
            .ok (vault + (payout - stake), house - (payout - stake),
              volume + stake)) ∧
        (house < payout - stake →
          V2.settleEntry stake payout vault house volume =
            .error .HouseInsufficient)) ∧
      (payout < stake →
        V2.settleEntry stake payout vault house volume =
          .ok (vault - (stake - payout), house + (stake - payout),
            volume + stake)) ∧
      (payout = stake →
        V2.settleEntry stake payout vault house volume =
          .ok (vault, house, volume + stake))) := by
  refine ⟨?_, ?_⟩
  · intro hv
    unfold V2.settleEntry
    rw [if_pos ⟨hs, hv⟩]
  · intro hvault
    refine ⟨fun hwin => ⟨?_, ?_⟩, ?_, ?_⟩
    · intro hh
      unfold V2.settleEntry
      rw [if_neg (by omega), if_neg (by omega), if_neg (by omega),
        if_pos hwin, if_pos (by omega)]
    · intro hh
      unfold V2.settleEntry
      rw [if_neg (by omega), if_neg (by omega), if_neg (by omega),
        if_pos hwin, if_neg (by omega)]
    · intro hloss
      unfold V2.settleEntry
      rw [if_neg (by omega), if_neg (by omega), if_neg (by omega),
        if_neg (by omega), if_pos hloss, if_pos (by omega)]
    · intro hdraw
      unfold V2.settleEntry
      rw [if_neg (by omega), if_neg (by omega), if_neg (by omega),
        if_neg (by omega), if_neg (by omega)]

/-- Claim C3: `bet_and_settle` (v2) with `stake > 0`, past its pause and
authority gates (and with the volume counter not overflowing), requires the
vault to hold at least `stake`; on every success path `total_volume` grows
by exactly `stake`; then `payout > stake` moves `payout − stake` from house
to vault — failing with `HouseInsufficient`, both balances unchanged, when
the house holds less — `payout < stake` moves `stake − payout` from vault to
house, and `payout = stake` moves nothing. -/
theorem C3_bet_and_settle_spec (stake payout : ℕ) (bet_id : String)
    (game_id : ℕ) (gem_data : List ℕ) (caller : ℕ) (cfg : V2.PauseConfig)
    (now : ℤ) (s : V2.BState) (hgd : gem_data.length = 7)
    (hp : V2.pauseGate cfg now = .ok ()) (ha : caller = V2.ADMIN)
    (hs : 0 < stake) (hvol : s.total_volume + stake < U64MOD) :
    (s.vault < stake →
      V2.bet_and_settle stake payout bet_id game_id gem_data caller cfg now s
          = .error .InsufficientFunds ∧
        commit s (V2.bet_and_settle stake payout bet_id game_id gem_data
          caller cfg now s) = s) ∧
    (stake ≤ s.vault →
      (stake < payout →
        (payout - stake ≤ s.house →
          V2.bet_and_settle stake payout bet_id game_id gem_data caller cfg
              now s =
            .ok ⟨s.vault + (payout - stake), s.house - (payout - stake),
              s.total_volume + stake⟩) ∧
        (s.house < payout - stake →
          V2.bet_and_settle stake payout bet_id game_id gem_data caller cfg
              now s = .error .HouseInsufficient ∧
            commit s (V2.bet_and_settle stake payout bet_id game_id gem_data
              caller cfg now s) = s)) ∧
      (payout < stake →
        V2.bet_and_settle stake payout bet_id game_id gem_data caller cfg
            now s =
          .ok ⟨s.vault - (stake - payout), s.house + (stake - payout),
            s.total_volume + stake⟩) ∧
      (payout = stake →
        V2.bet_and_settle stake payout bet_id game_id gem_data caller cfg
            now s = .ok ⟨s.vault, s.house, s.total_volume + stake⟩)) := by
  have hse := V2.settleEntry_pos_spec stake payout s.vault s.house
    s.total_volume hs hvol
  refine ⟨?_, ?_⟩
  · intro hv
    have h1 := hse.1 hv
    constructor
    · simp [V2.bet_and_settle, hgd, hp, ha, h1]
    · simp [V2.bet_and_settle, hgd, hp, ha, h1, commit]
  · intro hvault
    refine ⟨fun hwin => ⟨?_, ?_⟩, ?_, ?_⟩
    · intro hh
      have h1 := ((hse.2 hvault).1 hwin).1 hh
      simp [V2.bet_and_settle, hgd, hp, ha, h1]
    · intro hh
      have h1 := ((hse.2 hvault).1 hwin).2 hh
      constructor
      · simp [V2.bet_and_settle, hgd, hp, ha, h1]
      · simp [V2.bet_and_settle, hgd, hp, ha, h1, commit]
    · intro hloss
      have h1 := (hse.2 hvault).2.1 hloss
      simp [V2.bet_and_settle, hgd, hp, ha, h1]
    · intro hdraw
      have h1 := (hse.2 hvault).2.2 hdraw
      simp [V2.bet_and_settle, hgd, hp, ha, h1]

/-- Concrete instantiation of `C3_bet_and_settle_spec`: the spec's own
example — `bet_and_settle(stake=1000, payout=1500)` with house balance 500
pays 500 house→vault; the same call with house balance 499 fails with
`HouseInsufficient` and commits nothing. -/
theorem C3_bet_and_settle_spec_witness :
    (V2.bet_and_settle 1000 1500 "b1" 7 [1, 2, 3, 4, 5, 6, 7] V2.ADMIN
        ⟨V2.MULTISIG, V2.ADMIN, false, 0, 4, false⟩ 0 ⟨1000, 500, 0⟩ =
      .ok ⟨1500, 0, 1000⟩) ∧
    (V2.bet_and_settle 1000 1500 "b1" 7 [1, 2, 3, 4, 5, 6, 7] V2.ADMIN
        ⟨V2.MULTISIG, V2.ADMIN, false, 0, 4, false⟩ 0 ⟨1000, 499, 0⟩ =
      .error .HouseInsufficient) := by
  constructor
  · exact (((C3_bet_and_settle_spec 1000 1500 "b1" 7 [1, 2, 3, 4, 5, 6, 7]
      V2.ADMIN ⟨V2.MULTISIG, V2.ADMIN, false, 0, 4, false⟩ 0 ⟨1000, 500, 0⟩
      (by decide) rfl rfl (by decide) (by decide)).2 (by decide)).1
      (by decide)).1 (by decide)
  · exact ((((C3_bet_and_settle_spec 1000 1500 "b1" 7 [1, 2, 3, 4, 5, 6, 7]
      V2.ADMIN ⟨V2.MULTISIG, V2.ADMIN, false, 0, 4, false⟩ 0 ⟨1000, 499, 0⟩
      (by decide) rfl rfl (by decide) (by decide)).2 (by decide)).1
      (by decide)).2 (by decide)).1

/-! ### Claim C4 -/

/-- The batch loop processes entries strictly in list order: processing
`l1 ++ l2` is processing `l1`, then `l2` from the house/volume state `l1`
left behind; the first error aborts everything. -/
theorem V2.settleAll_append (l1 l2 : List ((ℕ × ℕ) × ℕ)) (house volume : ℕ) :
    V2.settleAll (l1 ++ l2) house volume =
      match V2.settleAll l1 house volume with
      | .error e => .error e
      | .ok (bals, h', v') =>
        match V2.settleAll l2 h' v' with
        | .error e => .error e
        | .ok (bals2, h2, v2) => .ok (bals ++ bals2, h2, v2) := by
  induction l1 generalizing house volume with
  | nil =>
    simp only [List.nil_append, V2.settleAll]
    cases h2 : V2.settleAll l2 house volume with
    | error e => rfl
    | ok r => obtain ⟨bals2, h2', v2'⟩ := r; rfl
  | cons hd tl ih =>
    obtain ⟨⟨stake, payout⟩, bal⟩ := hd
    have hcons : (((stake, payout), bal) :: tl) ++ l2 =
        ((stake, payout), bal) :: (tl ++ l2) := rfl
    rw [hcons]
    simp only [V2.settleAll]
    cases hse : V2.settleEntry stake payout bal house volume with
    | error e => rfl
    | ok r =>
      obtain ⟨bal', house', volume'⟩ := r
      dsimp only
      rw [ih house' volume']
      cases h1 : V2.settleAll tl house' volume' with
      | error e => rfl
      | ok r1 =>
        obtain ⟨bals, hf, vf⟩ := r1
        dsimp only
        cases h2 : V2.settleAll l2 hf vf with
        | error e => rfl
        | ok r2 => obtain ⟨bals2, h2', v2'⟩ := r2; rfl

/-- With every input-validation check, the pause gate and the authority
check satisfied, `batch_settle` is exactly the sequential entry loop. -/
theorem V2.batch_settle_eq_settleAll (stakes payouts : List ℕ)
    (bids : List String) (gids : List ℕ) (gds : List (List ℕ)) (caller : ℕ)
    (cfg : V2.PauseConfig) (now : ℤ) (vaults : List ℕ) (house volume : ℕ)
    (h10 : stakes.length ≤ 10) (h0 : stakes.length ≠ 0)
    (hp1 : payouts.length = stakes.length)
    (hb1 : bids.length = stakes.length) (hg1 : gids.length = stakes.length)
    (hgd1 : gds.length = stakes.length)
    (hall : (gds.all fun d => d.length = 7) = true)
    (hgate : V2.pauseGate cfg now = .ok ()) (hadm : caller = V2.ADMIN)
    (hv : vaults.length = stakes.length) :
    V2.batch_settle stakes payouts bids gids gds caller cfg now vaults house
        volume =
      V2.settleAll ((stakes.zip payouts).zip vaults) house volume := by
  unfold V2.batch_settle
  rw [if_neg (by omega), if_neg h0, if_neg (by omega), if_neg (by omega),
    if_neg (by omega), if_neg (by omega), if_neg (by simp [hall]), hgate]
  dsimp only
  rw [if_pos hadm, if_pos hv]

/-- Claim C4: batch atomicity.  If, with all list validations and gates
satisfied, the entries split as a prefix that settles fine followed by an
entry whose own check fails (insufficient vault funds, volume overflow, or
insufficient house balance — i.e. `settleEntry` errors on the house/volume
state the prefix produced), then the whole `batch_settle` call fails with
that entry's error, and the committed vault balances, house balance and
house volume are exactly the starting ones: there is no partial-batch
commit. -/
theorem C4_batch_atomicity (stakes payouts : List ℕ) (bids : List String)
    (gids : List ℕ) (gds : List (List ℕ)) (caller : ℕ) (cfg : V2.PauseConfig)
    (now : ℤ) (vaults : List ℕ) (house volume : ℕ)
    (l1 l2 : List ((ℕ × ℕ) × ℕ)) (sp1 sp2 bal : ℕ) (pre : List ℕ)
    (h' v' : ℕ) (e : VaultError)
    (h10 : stakes.length ≤ 10) (h0 : stakes.length ≠ 0)
    (hp1 : payouts.length = stakes.length)
    (hb1 : bids.length = stakes.length) (hg1 : gids.length = stakes.length)
    (hgd1 : gds.length = stakes.length)
    (hall : (gds.all fun d => d.length = 7) = true)
    (hgate : V2.pauseGate cfg now = .ok ()) (hadm : caller = V2.ADMIN)
    (hv : vaults.length = stakes.length)
    (hsplit : (stakes.zip payouts).zip vaults = l1 ++ ((sp1, sp2), bal) :: l2)
    (hpre : V2.settleAll l1 house volume = .ok (pre, h', v'))
    (hfail : V2.settleEntry sp1 sp2 bal h' v' = .error e) :
    V2.batch_settle stakes payouts bids gids gds caller cfg now vaults house
        volume = .error e ∧
      commit (vaults, house, volume)
        (V2.batch_settle stakes payouts bids gids gds caller cfg now vaults
          house volume) = (vaults, house, volume) := by
  have hmain : V2.batch_settle stakes payouts bids gids gds caller cfg now
      vaults house volume = .error e := by
    rw [V2.batch_settle_eq_settleAll stakes payouts bids gids gds caller cfg
      now vaults house volume h10 h0 hp1 hb1 hg1 hgd1 hall hgate hadm hv,
      hsplit, V2.settleAll_append, hpre]
    simp only [V2.settleAll, hfail]
  exact ⟨hmain, by rw [hmain]; rfl⟩

/-- Concrete instantiation of `C4_batch_atomicity`: a two-entry batch whose
second entry stakes 500 against a vault holding 300 fails the whole call
with `InsufficientFunds`, leaving both vaults, the house and the volume
untouched (in particular the first entry's loss of 100 is not applied). -/
theorem C4_batch_atomicity_witness :
    V2.batch_settle [100, 500] [0, 0] ["a", "b"] [1, 2]
        [[0, 0, 0, 0, 0, 0, 0], [0, 0, 0, 0, 0, 0, 0]] V2.ADMIN
        ⟨V2.MULTISIG, V2.ADMIN, false, 0, 4, false⟩ 0 [100, 300] 0 0 =
      .error .InsufficientFunds ∧
      commit ([100, 300], 0, 0)
        (V2.batch_settle [100, 500] [0, 0] ["a", "b"] [1, 2]
          [[0, 0, 0, 0, 0, 0, 0], [0, 0, 0, 0, 0, 0, 0]] V2.ADMIN
          ⟨V2.MULTISIG, V2.ADMIN, false, 0, 4, false⟩ 0 [100, 300] 0 0) =
        ([100, 300], 0, 0) :=
  C4_batch_atomicity [100, 500] [0, 0] ["a", "b"] [1, 2]
    [[0, 0, 0, 0, 0, 0, 0], [0, 0, 0, 0, 0, 0, 0]] V2.ADMIN
    ⟨V2.MULTISIG, V2.ADMIN, false, 0, 4, false⟩ 0 [100, 300] 0 0
    [((100, 0), 100)] [] 500 0 300 [0] 100 100 .InsufficientFunds
    (by decide) (by decide) (by decide) (by decide) (by decide) (by decide)
    (by decide) rfl rfl (by decide) rfl rfl rfl

/-! ### Claim C9 -/

/-- Claim C9: `batch_settle` input validation.  A call with more than 10
entries fails with `BatchTooLarge`; a call whose payout, bet-id, game-id or
gem-data lists differ in length from the stakes fails with `InvalidAmount`;
with the gates clear, a vault-reference list of the wrong length also fails
with `InvalidAmount`; and every failing call commits no balance change at
all. -/
theorem C9_batch_validation (stakes payouts : List ℕ) (bids : List String)
    (gids : List ℕ) (gds : List (List ℕ)) (caller : ℕ) (cfg : V2.PauseConfig)
    (now : ℤ) (vaults : List ℕ) (house volume : ℕ) :
    (10 < stakes.length →
      V2.batch_settle stakes payouts bids gids gds caller cfg now vaults
        house volume = .error .BatchTooLarge) ∧
    (stakes.length ≤ 10 → stakes.length ≠ 0 →
      (payouts.length ≠ stakes.length ∨ bids.length ≠ stakes.length ∨
        gids.length ≠ stakes.length ∨ gds.length ≠ stakes.length) →
      V2.batch_settle stakes payouts bids gids gds caller cfg now vaults
        house volume = .error .InvalidAmount) ∧
    (stakes.length ≤ 10 → stakes.length ≠ 0 →
      payouts.length = stakes.length → bids.length = stakes.length →
      gids.length = stakes.length → gds.length = stakes.length →
      (gds.all fun d => d.length = 7) = true →
      V2.pauseGate cfg now = .ok () → caller = V2.ADMIN →
      vaults.length ≠ stakes.length →
      V2.batch_settle stakes payouts bids gids gds caller cfg now vaults
        house volume = .error .InvalidAmount) ∧
    ((V2.batch_settle stakes payouts bids gids gds caller cfg now vaults
        house volume).isOk = false →
      commit (vaults, house, volume)
        (V2.batch_settle stakes payouts bids gids gds caller cfg now vaults
          house volume) = (vaults, house, volume)) := by
  refine ⟨?_, ?_, ?_, ?_⟩
  · intro h10
    unfold V2.batch_settle
    rw [if_pos h10]
  · intro h10 h0 hmis
    unfold V2.batch_settle
    rw [if_neg (by omega), if_neg h0]
    by_cases hp1 : payouts.length ≠ stakes.length
    · rw [if_pos hp1]
    · rw [if_neg hp1]
      by_cases hb1 : bids.length ≠ stakes.length
      · rw [if_pos hb1]
      · rw [if_neg hb1]
        by_cases hg1 : gids.length ≠ stakes.length
        · rw [if_pos hg1]
        · rw [if_neg hg1]
          rw [if_pos (by tauto)]
  · intro h10 h0 hp1 hb1 hg1 hgd1 hall hgate hadm hv
    unfold V2.batch_settle
    rw [if_neg (by omega), if_neg h0, if_neg (by omega), if_neg (by omega),
      if_neg (by omega), if_neg (by omega), if_neg (by simp [hall]), hgate]
    dsimp only
    rw [if_pos hadm, if_neg hv]
  · intro hfailed
    cases hres : V2.batch_settle stakes payouts bids gids gds caller cfg now
        vaults house volume with
    | error e => rfl
    | ok r => rw [hres] at hfailed; exact Bool.noConfusion hfailed

/-- Concrete instantiation of `C9_batch_validation`: 11 entries are
rejected as `BatchTooLarge`; mismatched payout and vault-reference lists are
rejected as `InvalidAmount`. -/
theorem C9_batch_validation_witness :
    (V2.batch_settle [1, 1, 1, 1, 1, 1, 1, 1, 1, 1, 1] [] [] [] [] V2.ADMIN
        ⟨V2.MULTISIG, V2.ADMIN, false, 0, 4, false⟩ 0 [] 0 0 =
      .error .BatchTooLarge) ∧
    (V2.batch_settle [1, 2] [3] [] [] [] V2.ADMIN
        ⟨V2.MULTISIG, V2.ADMIN, false, 0, 4, false⟩ 0 [] 0 0 =
      .error .InvalidAmount) ∧
    (V2.batch_settle [5] [6] ["x"] [9] [[0, 0, 0, 0, 0, 0, 0]] V2.ADMIN
        ⟨V2.MULTISIG, V2.ADMIN, false, 0, 4, false⟩ 0 [] 7 8 =
      .error .InvalidAmount) :=
  ⟨(C9_batch_validation [1, 1, 1, 1, 1, 1, 1, 1, 1, 1, 1] [] [] [] [] V2.ADMIN
      ⟨V2.MULTISIG, V2.ADMIN, false, 0, 4, false⟩ 0 [] 0 0).1 (by decide),
   (C9_batch_validation [1, 2] [3] [] [] [] V2.ADMIN
      ⟨V2.MULTISIG, V2.ADMIN, false, 0, 4, false⟩ 0 [] 0 0).2.1 (by decide)
      (by decide) (Or.inl (by decide)),
   (C9_batch_validation [5] [6] ["x"] [9] [[0, 0, 0, 0, 0, 0, 0]] V2.ADMIN
      ⟨V2.MULTISIG, V2.ADMIN, false, 0, 4, false⟩ 0 [] 7 8).2.2.1 (by decide)
      (by decide) (by decide) (by decide) (by decide) (by decide) (by decide)
      rfl rfl (by decide)⟩

/-! ### Claim C5 -/

/-- Claim C5 states the intended lazy auto-unpause, and the code implements
it for elapsed times below 256 hours (last conjunct), but the handlers
compute `elapsed_hours = ((now - start) / 3600) as u8`, truncating the
elapsed whole hours to 8 bits.  At `now − start = 256` hours (921600 s) the
cast wraps to 0, so with a 4-hour maintenance duration every gated
operation still fails with `MaintenancePaused` even though
`now − maintenance_start_time ≥ maintenance_duration`: the evaluation below
exhibits the divergence on all four gated operations. -/
theorem C5_maintenance_autoclear_bug :
    (V2.deposit 5 ⟨V2.MULTISIG, V2.ADMIN, true, 0, 4, false⟩ 921600 100 =
      .error .MaintenancePaused) ∧
    (V2.withdraw 5 ⟨V2.MULTISIG, V2.ADMIN, true, 0, 4, false⟩ 921600 0 100 =
      .error .MaintenancePaused) ∧
    (V2.bet_and_settle 10 20 "b" 1 [0, 0, 0, 0, 0, 0, 0] V2.ADMIN
        ⟨V2.MULTISIG, V2.ADMIN, true, 0, 4, false⟩ 921600 ⟨100, 100, 0⟩ =
      .error .MaintenancePaused) ∧
    (V2.batch_settle [10] [20] ["b"] [1] [[0, 0, 0, 0, 0, 0, 0]] V2.ADMIN
        ⟨V2.MULTISIG, V2.ADMIN, true, 0, 4, false⟩ 921600 [100] 100 0 =
      .error .MaintenancePaused) ∧
    ((921600 : ℤ) - 0 ≥ 4 * 3600) ∧
    (V2.deposit 5 ⟨V2.MULTISIG, V2.ADMIN, true, 0, 4, false⟩ 18000 100 =
      .ok 105) :=
  ⟨rfl, rfl, rfl, rfl, by decide, rfl⟩

/-! ### Claim C6 -/

/-- Claim C6: `place_bet(stake)` succeeds exactly when `stake > 0`, the
caller is the settlement authority, and
`balance.saturating_sub(locked_amount) ≥ stake`; on success it adds the
stake to `locked_amount`, increments `active_games`, and moves the stake
from the vault to the house pool; otherwise it fails with the first
violated check's error.  (The u64/u32 range hypotheses reflect that the
stored fields are machine integers.) -/
theorem C6_place_bet_spec (s : V1.State) (caller stake : ℕ)
    (hlk : 0 ≤ s.locked_amount) (hbal : s.balance < (U64MOD : ℤ))
    (hg : s.active_games + 1 < U32MOD) :
    ((0 < stake ∧ caller = V1.AUTHORITY_PUBKEY ∧
        (stake : ℤ) ≤ max 0 (s.balance - s.locked_amount)) →
      V1.place_bet caller stake s =
        .ok ⟨s.locked_amount + stake, s.active_games + 1, s.balance - stake,
          s.house + stake⟩) ∧
    (stake = 0 → V1.place_bet caller stake s = .error .InvalidAmount) ∧
    (0 < stake → caller ≠ V1.AUTHORITY_PUBKEY →
      V1.place_bet caller stake s = .error .Unauthorized) ∧
    (0 < stake → caller = V1.AUTHORITY_PUBKEY →
      max 0 (s.balance - s.locked_amount) < (stake : ℤ) →
      V1.place_bet caller stake s = .error .InsufficientFunds) := by
  refine ⟨?_, ?_, ?_, ?_⟩
  · rintro ⟨hs, hc, hav⟩
    have hov : s.locked_amount + (stake : ℤ) < (U64MOD : ℤ) := by
      rcases le_max_iff.mp hav with h' | h' <;> omega
    unfold V1.place_bet
    rw [if_pos hs, if_pos hc, if_pos hav, if_pos hov,
      Nat.mod_eq_of_lt hg]
  · intro hs
    subst hs
    unfold V1.place_bet
    rw [if_neg (by omega)]
  · intro hs hc
    unfold V1.place_bet
    rw [if_pos hs, if_neg hc]
  · intro hs hc hins
    unfold V1.place_bet
    rw [if_pos hs, if_pos hc, if_neg (not_le.mpr hins)]

/-- Concrete instantiation of `C6_place_bet_spec`: the spec's own example —
`place_bet(500)` on a vault holding 500 with nothing locked succeeds,
leaving `locked_amount = 500`, `active_games = 1` and an empty vault; the
immediate second `place_bet(500)` fails with `InsufficientFunds` since
`available = 0.saturating_sub(500) = 0`. -/
theorem C6_place_bet_spec_witness :
    V1.place_bet V1.AUTHORITY_PUBKEY 500 ⟨0, 0, 500, 700⟩ =
        .ok ⟨500, 1, 0, 1200⟩ ∧
      V1.place_bet V1.AUTHORITY_PUBKEY 500 ⟨500, 1, 0, 1200⟩ =
        .error .InsufficientFunds :=
  ⟨((C6_place_bet_spec ⟨0, 0, 500, 700⟩ V1.AUTHORITY_PUBKEY 500 (by decide)
      (by decide) (by decide)).1 ⟨by decide, rfl, by decide⟩).trans
      (congrArg Except.ok (by decide)),
   (C6_place_bet_spec ⟨500, 1, 0, 1200⟩ V1.AUTHORITY_PUBKEY 500 (by decide)
      (by decide) (by decide)).2.2.2 (by decide) rfl (by decide)⟩

/-! ### Claim C7 -/

/-- Claim C7, as stated, is false on the code: a `settle_game` call by the
settlement authority with `active_games = 1 > 0` and
`locked_amount = 0 ≥ stake = 0` does not "subtract stake and decrement
active_games" — the handler's first check `require!(stake > 0)` rejects it
with `InvalidAmount`. -/
theorem C7_zero_stake_counterexample :
    V1.settle_game V1.AUTHORITY_PUBKEY 0 5 ⟨0, 1, 1000, 1000⟩ =
        .error .InvalidAmount ∧
      0 < (V1.State.mk 0 1 1000 1000).active_games ∧
      ((0 : ℕ) : ℤ) ≤ (V1.State.mk 0 1 1000 1000).locked_amount :=
  ⟨rfl, by decide, by decide⟩

/-- Claim C7 (amended): `settle_game(stake, payout)` by the settlement
authority additionally requires `stake > 0` (else `InvalidAmount`) and, when
`payout > 0`, a house balance of at least `payout` (else `HouseInsufficient`
with no state change); under `active_games > 0` and `locked_amount ≥ stake`
it then subtracts `stake` from `locked_amount`, decrements `active_games`,
and moves `payout` lamports house→vault (none when `payout = 0`). -/
theorem C7_settle_game_amended (s : V1.State) (caller stake payout : ℕ)
    (hc : caller = V1.AUTHORITY_PUBKEY) (hg : 0 < s.active_games)
    (hl : (stake : ℤ) ≤ s.locked_amount) (hh0 : 0 ≤ s.house) :
    (stake = 0 →
      V1.settle_game caller stake payout s = .error .InvalidAmount) ∧
    (0 < stake → (payout : ℤ) ≤ s.house →
      V1.settle_game caller stake payout s =
        .ok ⟨s.locked_amount - stake, s.active_games - 1,
          s.balance + payout, s.house - payout⟩) ∧
    (0 < stake → s.house < (payout : ℤ) →
      V1.settle_game caller stake payout s = .error .HouseInsufficient ∧
        commit s (V1.settle_game caller stake payout s) = s) := by
  refine ⟨?_, ?_, ?_⟩
  · intro hs
    subst hs
    unfold V1.settle_game
    rw [if_neg (by omega)]
  · intro hs hh
    unfold V1.settle_game
    rw [if_pos hs, if_pos hc, if_pos hg, if_pos hl]
    dsimp only
    by_cases hp : payout > 0
    · rw [if_pos hp, if_pos hh]
    · rw [if_neg hp]
      have hp0 : payout = 0 := by omega
      subst hp0
      simp
  · intro hs hh
    have hp : payout > 0 := by omega
    have hmain : V1.settle_game caller stake payout s =
        .error .HouseInsufficient := by
      unfold V1.settle_game
      rw [if_pos hs, if_pos hc, if_pos hg, if_pos hl]
      dsimp only
      rw [if_pos hp, if_neg (not_le.mpr hh)]
    exact ⟨hmain, by rw [hmain]; rfl⟩

/-- Concrete instantiation of `C7_settle_game_amended`: settling a placed
500-lamport bet with payout 750 unlocks the stake, closes the game and pays
750 from the house. -/
theorem C7_settle_game_amended_witness :
    V1.settle_game V1.AUTHORITY_PUBKEY 500 750 ⟨500, 1, 0, 1000⟩ =
      .ok ⟨0, 0, 750, 250⟩ :=
  ((C7_settle_game_amended ⟨500, 1, 0, 1000⟩ V1.AUTHORITY_PUBKEY 500 750 rfl
    (by decide) (by decide) (by decide)).2.1 (by decide) (by decide)).trans
    (congrArg Except.ok (by decide))

/-! ### Claim C8 -/

/-- The per-call auto-unpause only ever touches the maintenance fields: the
emergency flag survives it untouched. -/
theorem V2.effectiveConfig_emergency (cfg : V2.PauseConfig) (now : ℤ) :
    (V2.effectiveConfig cfg now).emergency_pause = cfg.emergency_pause := by
  unfold V2.effectiveConfig
  split
  · dsimp only
    split <;> rfl
  · rfl

/-- With the emergency flag set the shared gate always reports
`EmergencyPaused`, whatever the maintenance flag and timer say. -/
theorem V2.pauseGate_emergency (cfg : V2.PauseConfig) (now : ℤ)
    (hem : cfg.emergency_pause = true) :
    V2.pauseGate cfg now = .error .EmergencyPaused := by
  unfold V2.pauseGate
  rw [if_pos (by rw [V2.effectiveConfig_emergency]; exact hem)]

/-- Claim C8, as stated, is false on the code in one detail: a gated call
that already fails its input validation reports the validation error, not
the emergency-pause error — `deposit(0)` under `emergency_pause = true`
fails with `InvalidAmount` because `require!(amount > 0)` runs before the
pause gate. -/
theorem C8_emergency_error_counterexample :
    V2.deposit 0 ⟨V2.MULTISIG, V2.ADMIN, false, 0, 4, true⟩ 0 100 =
        .error .InvalidAmount ∧
      (V2.PauseConfig.mk V2.MULTISIG V2.ADMIN false 0 4 true).emergency_pause
        = true ∧
      VaultError.InvalidAmount ≠ VaultError.EmergencyPaused :=
  ⟨rfl, rfl, by decide⟩

/-- Claim C8 (amended): with `emergency_pause = true` every gated
balance-moving v2 operation fails — regardless of `maintenance_pause` and
the maintenance timer — and it fails with the `EmergencyPaused` error
whenever its preceding input validation (positive amount; well-formed batch
lists and 7-byte gem data) passes; a call already failing input validation
fails with that validation error instead. -/
theorem C8_emergency_precedence (cfg : V2.PauseConfig) (now : ℤ)
    (hem : cfg.emergency_pause = true) :
    (∀ amount balance : ℕ, 0 < amount →
      V2.deposit amount cfg now balance = .error .EmergencyPaused) ∧
    (∀ amount balance : ℕ,
      (V2.deposit amount cfg now balance).isOk = false) ∧
    (∀ amount games balance : ℕ, 0 < amount →
      V2.withdraw amount cfg now games balance = .error .EmergencyPaused) ∧
    (∀ amount games balance : ℕ,
      (V2.withdraw amount cfg now games balance).isOk = false) ∧
    (∀ stake payout : ℕ, ∀ bid : String, ∀ gid : ℕ, ∀ gd : List ℕ,
      ∀ caller : ℕ, ∀ s : V2.BState, gd.length = 7 →
      V2.bet_and_settle stake payout bid gid gd caller cfg now s =
        .error .EmergencyPaused) ∧
    (∀ stake payout : ℕ, ∀ bid : String, ∀ gid : ℕ, ∀ gd : List ℕ,
      ∀ caller : ℕ, ∀ s : V2.BState,
      (V2.bet_and_settle stake payout bid gid gd caller cfg now s).isOk =
        false) ∧
    (∀ stakes payouts : List ℕ, ∀ bids : List String, ∀ gids : List ℕ,
      ∀ gds : List (List ℕ), ∀ caller : ℕ, ∀ vaults : List ℕ,
      ∀ house volume : ℕ,
      stakes.length ≤ 10 → stakes.length ≠ 0 →
      payouts.length = stakes.length → bids.length = stakes.length →
      gids.length = stakes.length → gds.length = stakes.length →
      (gds.all fun d => d.length = 7) = true →
      V2.batch_settle stakes payouts bids gids gds caller cfg now vaults
        house volume = .error .EmergencyPaused) ∧
    (∀ stakes payouts : List ℕ, ∀ bids : List String, ∀ gids : List ℕ,
      ∀ gds : List (List ℕ), ∀ caller : ℕ, ∀ vaults : List ℕ,
      ∀ house volume : ℕ,
      (V2.batch_settle stakes payouts bids gids gds caller cfg now vaults
        house volume).isOk = false) := by
  have hgate := V2.pauseGate_emergency cfg now hem
  refine ⟨?_, ?_, ?_, ?_, ?_, ?_, ?_, ?_⟩
  · intro amount balance ha
    unfold V2.deposit
    rw [if_pos ha, hgate]
  · intro amount balance
    unfold V2.deposit
    by_cases ha : amount > 0
    · rw [if_pos ha, hgate]; rfl
    · rw [if_neg ha]; rfl
  · intro amount games balance ha
    unfold V2.withdraw
    rw [if_pos ha, hgate]
  · intro amount games balance
    unfold V2.withdraw
    by_cases ha : amount > 0
    · rw [if_pos ha, hgate]; rfl
    · rw [if_neg ha]; rfl
  · intro stake payout bid gid gd caller s hgd
    unfold V2.bet_and_settle
    rw [if_pos hgd, hgate]
  · intro stake payout bid gid gd caller s
    unfold V2.bet_and_settle
    by_cases hgd : gd.length = 7
    · rw [if_pos hgd, hgate]; rfl
    · rw [if_neg hgd]; rfl
  · intro stakes payouts bids gids gds caller vaults house volume h10 h0 hp1
      hb1 hg1 hgd1 hall
    unfold V2.batch_settle
    rw [if_neg (by omega), if_neg h0, if_neg (by omega), if_neg (by omega),
      if_neg (by omega), if_neg (by omega), if_neg (by simp [hall]), hgate]
  · intro stakes payouts bids gids gds caller vaults house volume
    unfold V2.batch_settle
    split_ifs <;> first | rfl | (rw [hgate]; rfl)

/-- Concrete instantiation of `C8_emergency_precedence`: a valid deposit is
rejected as `EmergencyPaused` even while a maintenance pause (with an
expired timer) is also set. -/
theorem C8_emergency_precedence_witness :
    V2.deposit 7 ⟨V2.MULTISIG, V2.ADMIN, true, 0, 4, true⟩ 921600 50 =
      .error .EmergencyPaused :=
  (C8_emergency_precedence ⟨V2.MULTISIG, V2.ADMIN, true, 0, 4, true⟩ 921600
    rfl).1 7 50 (by decide)

/-! ### Claim C10 -/

/-- Claim C10: in the profit-list `batch_settle`, a losing entry
(`profits[i] < 0`) debits the vault with **no** prior balance check — the
subtraction is an unchecked u64 `-=`, so when the vault holds less than the
loss it wraps past zero (the call still succeeds and the vault ends up with
an astronomically large balance) — while a winning entry (`profits[i] > 0`)
does check the house balance and fails with `HouseInsufficient` when it is
short. -/
theorem C10_unguarded_vault_debit (pda : ℕ → ℕ) (user bal house L : ℕ)
    (hL : 0 < L) (hL64 : L < U64MOD) (hbal : bal < L) :
    (BS.batch_settle pda [user] [-(L : ℤ)] [⟨pda user, true, bal⟩] house =
      .ok ([bal + (U64MOD - L)], (house + L) % U64MOD)) ∧
    (∀ W house' : ℕ, 0 < W → house' < W →
      BS.batch_settle pda [user] [(W : ℤ)] [⟨pda user, true, bal⟩] house' =
        .error .HouseInsufficient) := by
  constructor
  · show BS.settleUsers pda [(user, -(L : ℤ), ⟨pda user, true, bal⟩)] house
      = _
    unfold BS.settleUsers
    rw [if_pos rfl, if_pos rfl, if_pos (show -(L : ℤ) < 0 by omega)]
    have hlam : (-(-(L : ℤ))).toNat = L := by simp
    have hmod : L % U64MOD = L := Nat.mod_eq_of_lt hL64
    have hbal' : (bal + U64MOD - L) % U64MOD = bal + (U64MOD - L) := by
      rw [Nat.mod_eq_of_lt (by omega)]
      omega
    dsimp only
    rw [hlam, hmod, hbal']
    rfl
  · intro W house' hW hh
    show BS.settleUsers pda [(user, (W : ℤ), ⟨pda user, true, bal⟩)] house'
      = _
    unfold BS.settleUsers
    rw [if_pos rfl, if_pos rfl, if_neg (show ¬ (W : ℤ) < 0 by omega),
      if_pos (show (W : ℤ) > 0 by omega)]
    dsimp only
    rw [Int.toNat_natCast, if_neg (by omega)]

/-- Concrete instantiation of `C10_unguarded_vault_debit`: a loss of 500
against a vault holding 100 succeeds and wraps the vault balance to
`2^64 − 400` lamports; a win of 10 against a house holding 9 fails. -/
theorem C10_unguarded_vault_debit_witness :
    (BS.batch_settle (fun u => u) [7] [-(500 : ℤ)] [⟨7, true, 100⟩] 3 =
      .ok ([100 + (U64MOD - 500)], (3 + 500) % U64MOD)) ∧
    (BS.batch_settle (fun u => u) [7] [(10 : ℤ)] [⟨7, true, 100⟩] 9 =
      .error .HouseInsufficient) :=
  ⟨(C10_unguarded_vault_debit (fun u => u) 7 100 3 500 (by decide)
      (by decide) (by decide)).1,
   (C10_unguarded_vault_debit (fun u => u) 7 100 3 500 (by decide)
      (by decide) (by decide)).2 10 9 (by decide) (by decide)⟩

end SolsBet
